import Mathlib

/-!
# Routing experiment harness and MyGpsr installer

A shallow embedding of `stats/routing-experiment.cc` (the statistics collector
and the run controller of `RoutingExperiment`) and of
`mygpsr/helper/mygpsr-helper.cc` (`MyGpsrHelper::Install`).

Conventions of the embedding:

* `uint32_t` fields are `Nat` and every `+=` / `*` on them is taken `% 2^32`;
* `Time` is an `Int` count of nanoseconds (the simulator's default resolution)
  held in an `int64_t`: every `+` / `-` on it is wrapped into the 64-bit
  two's-complement range by `wrapInt64` (in C++ a signed overflow is undefined;
  the wrap is what the machine addition does);
* a C++ `double` is a `CDouble`: a finite value (kept as an exact rational, the
  rounding to binary64 is not modelled) or one of the three special values that
  a division can produce;
* a `Ptr<T>` that may be null is an `Option`, and dereferencing a null handle
  stops the program with `Fault.nullDereference`;
* `NS_FATAL_ERROR` stops the program with `Fault.fatalError`.
-/

/-- The two ways in which the modelled code stops a program: a dereference of
a null `Ptr` and `NS_FATAL_ERROR` with its message. -/
inductive Fault
  | nullDereference
  | fatalError (msg : String)
  deriving DecidableEq

/-- The modulus of `uint32_t` arithmetic. -/
def UINT32_MOD : Nat := 4294967296

/-- A C++ `double`: finite values are exact rationals, plus the special values
of IEEE 754 arithmetic (the sign of zero is not modelled, a zero is `+0`). -/
inductive CDouble
  | finite (q : ℚ)
  | posInf
  | negInf
  | nan
  deriving DecidableEq

namespace CDouble

/-- Conversion `double (n)` of an unsigned integer. -/
def ofNat (n : Nat) : CDouble := finite (n : ℚ)

/-- The product `a * b` of two doubles. -/
def mul : CDouble → CDouble → CDouble
  | finite a, finite b => finite (a * b)
  | nan, _ => nan
  | _, nan => nan
  | posInf, finite b => if b = 0 then nan else if 0 < b then posInf else negInf
  | negInf, finite b => if b = 0 then nan else if 0 < b then negInf else posInf
  | finite a, posInf => if a = 0 then nan else if 0 < a then posInf else negInf
  | finite a, negInf => if a = 0 then nan else if 0 < a then negInf else posInf
  | posInf, posInf => posInf
  | posInf, negInf => negInf
  | negInf, posInf => negInf
  | negInf, negInf => posInf

/-- The quotient `a / b` of two doubles. A division by zero raises no trap: it
yields `nan` for `0 / 0` and an infinity of the sign of `a` otherwise. -/
def div : CDouble → CDouble → CDouble
  | finite a, finite b =>
      if b = 0 then (if a = 0 then nan else if 0 < a then posInf else negInf)
      else finite (a / b)
  | nan, _ => nan
  | _, nan => nan
  | finite _, posInf => finite 0
  | finite _, negInf => finite 0
  | posInf, finite b => if 0 ≤ b then posInf else negInf
  | negInf, finite b => if 0 ≤ b then negInf else posInf
  | posInf, posInf => nan
  | posInf, negInf => nan
  | negInf, posInf => nan
  | negInf, negInf => nan

/-- The double lies in the closed interval `[0, 1]`. -/
def inUnitInterval : CDouble → Prop
  | finite q => 0 ≤ q ∧ q ≤ 1
  | _ => False

end CDouble

/-- The value of an integer as an `int64_t`, in two's complement: the result
of a 64-bit signed addition or subtraction whose exact value is `x`. -/
def wrapInt64 (x : Int) : Int :=
  (x + 9223372036854775808) % 18446744073709551616 - 9223372036854775808

/-- `Time::GetSeconds ()` of a time kept in nanoseconds. -/
def Time.GetSeconds (t : Int) : CDouble := CDouble.finite ((t : ℚ) / 1000000000)

/-- A delivered packet as far as the collector looks at it: `GetSize ()` and the
send time of its `TimestampTag`, when `FindFirstMatchingByteTag` finds one. -/
structure Packet where
  size : Nat
  timestamp : Option Int
  deriving DecidableEq

/-- The fields of `class RoutingExperiment`. -/
structure RoutingExperiment where
  port : Nat
  bytesTotal : Nat
  packetsReceived : Nat
  packetsTotal : Nat
  totalTime : Int
  m_CSVfileName : String
  m_averageTimeFile : String
  m_traceName : String
  m_nSinks : Int
  m_protocolName : String
  m_txp : CDouble
  m_traceMobility : Bool
  m_protocol : Nat
  deriving DecidableEq

/-- One row of the periodic statistics file, written by `CheckThroughput`. -/
structure ThroughputRow where
  simulationSecond : CDouble
  receiveRate : CDouble
  packetsReceived : Nat
  numberOfSinks : Int
  routingProtocol : String
  transmissionPower : CDouble
  deriving DecidableEq

/-- One row of the per-run statistics file, written by `Statistics`. -/
structure StatisticsRow where
  nodeCounts : Int
  totalPackets : Nat
  totalReceivedPackets : Nat
  totalTime : CDouble
  averageTime : CDouble
  PDR : CDouble
  deriving DecidableEq

namespace RoutingExperiment

/-- The constructor `RoutingExperiment::RoutingExperiment ()`. The members
`m_nSinks` and `m_txp` get no initialiser there; their indeterminate values
are the two arguments. -/
def new (nSinks0 : Int) (txp0 : CDouble) : RoutingExperiment :=
  { port := 9
    bytesTotal := 0
    packetsReceived := 0
    packetsTotal := 100
    totalTime := 0
    m_CSVfileName := "../experiment-statistics/vanet-routing.output.csv"
    m_averageTimeFile := "../experiment-statistics/vanet-routing.time.csv"
    m_traceName := "../experiment-statistics/manet-routing-compare"
    m_nSinks := nSinks0
    m_protocolName := ""
    m_txp := txp0
    m_traceMobility := false
    m_protocol := 2 }

/-- The body of the `while` loop of `ReceivePacket` for one packet, received
at simulated time `now`. -/
def receiveOne (now : Int) (s : RoutingExperiment) (p : Packet) : RoutingExperiment :=
  let s1 := { s with bytesTotal := (s.bytesTotal + p.size) % UINT32_MOD }
  let s2 := { s1 with packetsReceived := (s1.packetsReceived + 1) % UINT32_MOD }
  match p.timestamp with
  | some tx => { s2 with totalTime := wrapInt64 (s2.totalTime + wrapInt64 (now - tx)) }
  | none => s2

/-- `RoutingExperiment::ReceivePacket`: drains the socket's queue of packets,
`RecvFrom` handing them out front first until it returns null. -/
def ReceivePacket (s : RoutingExperiment) (now : Int) : List Packet → RoutingExperiment
  | [] => s
  | p :: queue => ReceivePacket (receiveOne now s p) now queue

/-- `RoutingExperiment::CheckThroughput` at simulated time `now`: the row it
appends, the state it leaves, and the delay in seconds after which it has
scheduled itself again. -/
def CheckThroughput (s : RoutingExperiment) (now : Int) :
    ThroughputRow × RoutingExperiment × Nat :=
  let kbs := CDouble.div (CDouble.mul (CDouble.ofNat s.bytesTotal) (CDouble.finite 8))
    (CDouble.finite 1000)
  let s1 := { s with bytesTotal := 0 }
  let row : ThroughputRow :=
    { simulationSecond := Time.GetSeconds now
      receiveRate := kbs
      packetsReceived := s1.packetsReceived
      numberOfSinks := s1.m_nSinks
      routingProtocol := s1.m_protocolName
      transmissionPower := s1.m_txp }
  (row, { s1 with packetsReceived := 0 }, 1)

/-- `RoutingExperiment::Statistics`: the row it appends and the state it
leaves. -/
def Statistics (s : RoutingExperiment) (nodes : Int) : StatisticsRow × RoutingExperiment :=
  let averageTime := CDouble.div (Time.GetSeconds s.totalTime) (CDouble.ofNat s.packetsReceived)
  let PDR := CDouble.div (CDouble.ofNat s.packetsReceived)
    (CDouble.ofNat ((s.packetsTotal * 10) % UINT32_MOD))
  let row : StatisticsRow :=
    { nodeCounts := nodes
      totalPackets := (s.packetsTotal * 10) % UINT32_MOD
      totalReceivedPackets := s.packetsReceived
      totalTime := Time.GetSeconds s.totalTime
      averageTime := averageTime
      PDR := PDR }
  (row, { s with packetsReceived := 0, totalTime := 0 })

/-- The receive callbacks that fire while `Simulator::Run ()` executes: each
entry is one call of `ReceivePacket`, with its time and the socket's queue. -/
def deliver (s : RoutingExperiment) : List (Int × List Packet) → RoutingExperiment
  | [] => s
  | (now, queue) :: rest => deliver (ReceivePacket s now queue) rest

/-- The calls of `Run` into the simulator library, in program order. -/
inductive SetupStep
  | createNodes (n : Int)
  | createChannel
  | installDevices
  | installMobility
  | listAdd (helper : String)
  | setRoutingHelper (helper : String)
  | installInternet
  | dsrMainInstall
  | gpsrInstall
  | mygpsrInstall
  | assignAddresses
  | setupPacketReceive (i : Int)
  | addApplication (node : Int)
  | simulatorRun
  | simulatorDestroy
  deriving DecidableEq

/-- What one call of `Run` leaves behind: the library calls made, the fault
that stopped it (if any), the row `Statistics` wrote (if it was reached) and
the final fields of the object. -/
structure RunResult where
  steps : List SetupStep
  fault : Option Fault
  row : Option StatisticsRow
  state : RoutingExperiment
  deriving DecidableEq

/-- The conversion of the `int` argument `protocol` to the `uint32_t` member
`m_protocol`. -/
def toUint32 (protocol : Int) : Nat := (protocol % 4294967296).toNat

/-- The `switch (m_protocol)` of `Run`: the calls made and the protocol name
chosen, or the fatal error of the `default` label. -/
def protocolSwitch (m_protocol : Nat) : Except Fault (List SetupStep × String) :=
  match m_protocol with
  | 1 => .ok ([.listAdd "olsr"], "OLSR")
  | 2 => .ok ([.listAdd "aodv"], "AODV")
  | 3 => .ok ([.listAdd "dsdv"], "DSDV")
  | 4 => .ok ([], "DSR")
  | 5 => .ok ([], "GPSR")
  | 6 => .ok ([], "MYGPSR")
  | _ => .error (.fatalError ("No such protocol:" ++ toString m_protocol))

/-- The `if (m_protocol < 4) ... else if ...` chain of `Run` that installs the
internet stack and the routing protocol. -/
def installStack (m_protocol : Nat) : List SetupStep :=
  if m_protocol < 4 then [.setRoutingHelper "list", .installInternet]
  else if m_protocol = 4 then [.installInternet, .dsrMainInstall]
  else if m_protocol = 5 then [.setRoutingHelper "gpsr", .installInternet, .gpsrInstall]
  else if m_protocol = 6 then [.setRoutingHelper "mygpsr", .installInternet, .mygpsrInstall]
  else []

/-- The loop `for (int i = 0; i < nSinks; i++)` of `Run`: a receiving socket on
node `i` and a sender application on node `i + nSinks`. -/
def trafficLoop (nSinks : Int) : List SetupStep :=
  (List.range nSinks.toNat).flatMap
    (fun i => [.setupPacketReceive (i : Int), .addApplication ((i : Int) + nSinks)])

/-- `RoutingExperiment::Run`. The receive callbacks that the simulator fires
during `Simulator::Run ()` are the argument `deliveries`. -/
def Run (s : RoutingExperiment) (nSinks : Int) (txp : CDouble) (CSVfileName : String)
    (protocol : Int) (nodes : Int) (deliveries : List (Int × List Packet)) : RunResult :=
  let s1 := { s with m_nSinks := nSinks, m_txp := txp, m_CSVfileName := CSVfileName,
                     m_protocol := toUint32 protocol }
  let nWifis := nodes
  let s2 := { s1 with m_protocolName := "protocol" }
  let built : List SetupStep :=
    [.createNodes nWifis, .createChannel, .installDevices, .installMobility]
  match protocolSwitch s2.m_protocol with
  | .error f => { steps := built, fault := some f, row := none, state := s2 }
  | .ok (added, name) =>
    let s3 := { s2 with m_protocolName := name }
    let setup := built ++ added ++ installStack s3.m_protocol ++ [.assignAddresses]
      ++ trafficLoop nSinks
    let s4 := deliver s3 deliveries
    let out := Statistics s4 nWifis
    { steps := setup ++ [.simulatorRun, .simulatorDestroy], fault := none,
      row := some out.1, state := out.2 }

/-- The number of packets that a sequence of receive callbacks hands over. -/
def packetCount (deliveries : List (Int × List Packet)) : Nat :=
  (deliveries.map (fun d => d.2.length)).sum

/-- The values that the command line gives to the options of `CommandSetup`,
`none` for an option that is absent. -/
structure CommandLine where
  CSVfileName : Option String
  traceMobility : Option Bool
  protocol : Option Nat
  AverageTimeFile : Option String
  TraceFile : Option String
  deriving DecidableEq

/-- `RoutingExperiment::CommandSetup`: each option that is present overwrites
its member. -/
def CommandSetup (s : RoutingExperiment) (cmd : CommandLine) : RoutingExperiment :=
  { s with m_CSVfileName := cmd.CSVfileName.getD s.m_CSVfileName
           m_traceMobility := cmd.traceMobility.getD s.m_traceMobility
           m_protocol := cmd.protocol.getD s.m_protocol
           m_averageTimeFile := cmd.AverageTimeFile.getD s.m_averageTimeFile
           m_traceName := cmd.TraceFile.getD s.m_traceName }

/-- The inner loop of `main`, `for (int counts = 20; counts <= 100; counts+=5)`,
from the value `counts` of its variable on: the pairs (protocol, counts) of
the calls of `Run` it makes, in order. -/
def countsLoop (protocol : Int) (counts : Int) : List (Int × Int) :=
  if counts ≤ 100 then (protocol, counts) :: countsLoop protocol (counts + 5) else []
termination_by (101 - counts).toNat
decreasing_by omega

/-- The outer loop of `main`, `for (int protocol = 5; protocol<=6; protocol++)`,
from the value `protocol` of its variable on. -/
def protocolLoop (protocol : Int) : List (Int × Int) :=
  if protocol ≤ 6 then countsLoop protocol 20 ++ protocolLoop (protocol + 1) else []
termination_by (7 - protocol).toNat
decreasing_by omega

/-- The pairs (protocol, counts) that the two loops of `main` pass to `Run`. -/
def mainSweep : List (Int × Int) := protocolLoop 5

/-- The calls `experiment.Run (nSinks, txp, CSVfileName, protocol, counts)` of
`main` with `nSinks = 10` and `txp = 20`, one after the other on the same
object; `env` holds, run by run, the receive callbacks that the simulator
fires. A run that ends in a fatal error ends the program. -/
def sweepRuns (s : RoutingExperiment) (CSVfileName : String) :
    List (Int × Int) → List (List (Int × List Packet)) → List RunResult
  | [], _ => []
  | (protocol, counts) :: rest, env =>
    let r := Run s 10 (CDouble.finite 20) CSVfileName protocol counts (env.headD [])
    match r.fault with
    | some _ => [r]
    | none => r :: sweepRuns r.state CSVfileName rest env.tail

/-- The function `main`: the runs it makes, in order. The two header lines it
writes to the statistics files are not modelled. -/
def main (nSinks0 : Int) (txp0 : CDouble) (cmd : CommandLine)
    (env : List (List (Int × List Packet))) : List RunResult :=
  let experiment := CommandSetup (new nSinks0 txp0) cmd
  let CSVfileName := experiment.m_CSVfileName
  sweepRuns experiment CSVfileName mainSweep env

end RoutingExperiment

namespace MyGpsrHelper

/-- A down-target callback: null, a send entry point of a lower layer (named by
a number), or `MakeCallback (&mygpsr::RoutingProtocol::AddHeaders, r)` for the
routing instance `r` aggregated to the node with the given id. -/
inductive DownTarget
  | null
  | lower (id : Nat)
  | addHeaders (node : Nat)
  deriving DecidableEq

/-- The transport instance of a node, as far as `Install` touches it. -/
structure UdpL4Protocol where
  downTarget : DownTarget
  deriving DecidableEq

/-- The routing instance of a node, as far as `Install` touches it. -/
structure RoutingProtocol where
  downTarget : DownTarget
  deriving DecidableEq

/-- A node with the two objects `Install` looks up by `GetObject`; the id of a
node is its position in `NodeContainer::GetGlobal ()`. -/
structure Node where
  udp : Option UdpL4Protocol
  mygpsr : Option RoutingProtocol
  deriving DecidableEq

/-- The cross-layer callback of a phy: null, or
`MakeCallback (&mygpsr::RoutingProtocol::UpdatePowerAndRange, r)` where `r` is
the routing instance of the given node, or a null `Ptr` (`none`). -/
inductive CrossLayer
  | null
  | updatePowerAndRange (routing : Option Nat)
  deriving DecidableEq

/-- A `YansWifiPhy` with the callback that `SetCrossLayer` stores. -/
structure YansWifiPhy where
  crossLayer : CrossLayer
  deriving DecidableEq

/-- The object behind `GetPhy ()`, with the result of `GetObject<YansWifiPhy> ()`. -/
structure WifiPhy where
  yans : Option YansWifiPhy
  deriving DecidableEq

/-- A `WifiNetDevice`: the results of `GetPhy ()` and of `GetNode ()` (a node id). -/
structure WifiNetDevice where
  phy : Option WifiPhy
  node : Option Nat
  deriving DecidableEq

/-- An entry of the `NetDeviceContainer`, with the result of
`GetObject<WifiNetDevice> ()`. -/
structure NetDevice where
  wifi : Option WifiNetDevice
  deriving DecidableEq

/-- The result of a run of `Install`: it ran to its end, or it stopped in a
fault; either way with the nodes and devices as they are at that point. -/
inductive Result
  | ok (c : List Node) (device : List NetDevice)
  | fault (f : Fault) (c : List Node) (device : List NetDevice)
  deriving DecidableEq

/-- The body of the first loop of `Install` for the node with id `i`. -/
def spliceNode (i : Nat) (node : Node) : Except Fault Node :=
  match node.udp with
  | none => .error .nullDereference
  | some udp =>
    match node.mygpsr with
    | none => .error .nullDereference
    | some mygpsr =>
      let mygpsr1 := { mygpsr with downTarget := udp.downTarget }
      let udp1 := { udp with downTarget := DownTarget.addHeaders i }
      .ok { udp := some udp1, mygpsr := some mygpsr1 }

/-- The first loop of `Install` over the nodes from id `i` on: the nodes after
the loop, or the fault with the nodes as the fault leaves them. -/
def spliceLoop (i : Nat) : List Node → Except (Fault × List Node) (List Node)
  | [] => .ok []
  | node :: rest =>
    match spliceNode i node with
    | .error f => .error (f, node :: rest)
    | .ok node1 =>
      match spliceLoop (i + 1) rest with
      | .error (f, rest1) => .error (f, node1 :: rest1)
      | .ok rest1 => .ok (node1 :: rest1)

/-- The body of the second loop of `Install` for one device, with the nodes
`c` as the first loop left them. Every node of a simulation is in the global
list, so a node id outside `c` names no node and is treated like a null
`GetNode ()`. -/
def wireDevice (c : List Node) (d : NetDevice) : Except Fault NetDevice :=
  match d.wifi with
  | none => .error .nullDereference
  | some device =>
    match device.phy with
    | none => .error .nullDereference
    | some wifiPhy =>
      let phy := wifiPhy.yans
      match device.node with
      | none => .error .nullDereference
      | some id =>
        match c.get? id with
        | none => .error .nullDereference
        | some node =>
          let callback := CrossLayer.updatePowerAndRange (node.mygpsr.map (fun _ => id))
          match phy with
          | none => .error .nullDereference
          | some yans =>
            .ok { wifi := some { device with
                    phy := some { yans := some { yans with crossLayer := callback } } } }

/-- The second loop of `Install`: the devices after the loop, or the fault with
the devices as the fault leaves them. -/
def wireLoop (c : List Node) : List NetDevice → Except (Fault × List NetDevice) (List NetDevice)
  | [] => .ok []
  | d :: rest =>
    match wireDevice c d with
    | .error f => .error (f, d :: rest)
    | .ok d1 =>
      match wireLoop c rest with
      | .error (f, rest1) => .error (f, d1 :: rest1)
      | .ok rest1 => .ok (d1 :: rest1)

/-- `MyGpsrHelper::Install`, run on the global node list `c` and the device
container `device`. -/
def Install (c : List Node) (device : List NetDevice) : Result :=
  match spliceLoop 0 c with
  | .error (f, c1) => .fault f c1 device
  | .ok c1 =>
    match wireLoop c1 device with
    | .error (f, device1) => .fault f c1 device1
    | .ok device1 => .ok c1 device1

/-- The node has both a transport instance and a routing instance. -/
def nodeReady (node : Node) : Bool := node.udp.isSome && node.mygpsr.isSome

/-- The device is a `WifiNetDevice` with a `YansWifiPhy` behind `GetPhy ()` and
is attached to one of the `n` nodes of the global list. -/
def deviceReady (n : Nat) (d : NetDevice) : Bool :=
  match d.wifi with
  | none => false
  | some device =>
    match device.phy with
    | none => false
    | some wifiPhy =>
      wifiPhy.yans.isSome &&
        (match device.node with
         | none => false
         | some id => decide (id < n))

/-- The cross-layer callback stored in the phy of a device, if the device has
such a phy. -/
def feedbackOf (d : NetDevice) : Option CrossLayer :=
  match d.wifi with
  | none => none
  | some device =>
    match device.phy with
    | none => none
    | some wifiPhy => wifiPhy.yans.map (fun yans => yans.crossLayer)

/-- The feedback channel of the device is wired to a missing routing instance:
its callback is bound to a null `Ptr`. -/
def danglingFeedback (d : NetDevice) : Bool :=
  feedbackOf d == some (CrossLayer.updatePowerAndRange none)

end MyGpsrHelper


/-! ## The statistics collector -/

namespace RoutingExperiment

theorem receiveOne_packetsTotal (now : Int) (s : RoutingExperiment) (p : Packet) :
    (receiveOne now s p).packetsTotal = s.packetsTotal := by
  unfold receiveOne
  cases p.timestamp <;> rfl

theorem receiveOne_packetsReceived (now : Int) (s : RoutingExperiment) (p : Packet) :
    (receiveOne now s p).packetsReceived = (s.packetsReceived + 1) % UINT32_MOD := by
  unfold receiveOne
  cases p.timestamp <;> rfl

theorem ReceivePacket_packetsTotal (s : RoutingExperiment) (now : Int) (queue : List Packet) :
    (ReceivePacket s now queue).packetsTotal = s.packetsTotal := by
  induction queue generalizing s with
  | nil => rfl
  | cons p queue ih => rw [ReceivePacket, ih, receiveOne_packetsTotal]

/-- The packet counter after a drain, in `uint32_t` arithmetic. -/
theorem ReceivePacket_packetsReceived (s : RoutingExperiment) (now : Int) (queue : List Packet)
    (hs : s.packetsReceived < UINT32_MOD) :
    (ReceivePacket s now queue).packetsReceived
      = (s.packetsReceived + queue.length) % UINT32_MOD := by
  induction queue generalizing s with
  | nil => simpa [ReceivePacket] using (Nat.mod_eq_of_lt hs).symm
  | cons p queue ih =>
    rw [ReceivePacket, ih]
    · rw [receiveOne_packetsReceived, List.length_cons, Nat.mod_add_mod]
      congr 1
      omega
    · rw [receiveOne_packetsReceived]
      exact Nat.mod_lt _ (by decide)

theorem deliver_packetsTotal (s : RoutingExperiment) (deliveries : List (Int × List Packet)) :
    (deliver s deliveries).packetsTotal = s.packetsTotal := by
  induction deliveries generalizing s with
  | nil => rfl
  | cons d rest ih =>
    obtain ⟨now, queue⟩ := d
    rw [deliver, ih, ReceivePacket_packetsTotal]

/-- The packet counter after the receive callbacks of a run, in `uint32_t`
arithmetic. -/
theorem deliver_packetsReceived (s : RoutingExperiment) (deliveries : List (Int × List Packet))
    (hs : s.packetsReceived < UINT32_MOD) :
    (deliver s deliveries).packetsReceived
      = (s.packetsReceived + packetCount deliveries) % UINT32_MOD := by
  induction deliveries generalizing s with
  | nil => simpa [deliver, packetCount] using (Nat.mod_eq_of_lt hs).symm
  | cons d rest ih =>
    obtain ⟨now, queue⟩ := d
    rw [deliver, ih]
    · rw [ReceivePacket_packetsReceived s now queue hs, Nat.mod_add_mod]
      congr 1
      simp only [packetCount, List.map_cons, List.sum_cons]
      omega
    · rw [ReceivePacket_packetsReceived s now queue hs]
      exact Nat.mod_lt _ (by decide)

theorem Statistics_PDR (s : RoutingExperiment) (nodes : Int) :
    (Statistics s nodes).1.PDR
      = CDouble.div (CDouble.ofNat s.packetsReceived)
          (CDouble.ofNat ((s.packetsTotal * 10) % UINT32_MOD)) := rfl

theorem Statistics_totalReceivedPackets (s : RoutingExperiment) (nodes : Int) :
    (Statistics s nodes).1.totalReceivedPackets = s.packetsReceived := rfl

theorem Statistics_totalPackets (s : RoutingExperiment) (nodes : Int) :
    (Statistics s nodes).1.totalPackets = (s.packetsTotal * 10) % UINT32_MOD := rfl

theorem Statistics_averageTime (s : RoutingExperiment) (nodes : Int) :
    (Statistics s nodes).1.averageTime
      = CDouble.div (Time.GetSeconds s.totalTime) (CDouble.ofNat s.packetsReceived) := rfl

/-- C1, counterexample: in the state the constructor builds no packet has been
received, and the row of `Statistics` carries `nan` as its average latency,
not `0`. -/
theorem Statistics_zero_received_counterexample :
    (new 10 (.finite 20)).packetsReceived = 0 ∧
    (Statistics (new 10 (.finite 20)) 50).1.averageTime = CDouble.nan ∧
    (Statistics (new 10 (.finite 20)) 50).1.averageTime ≠ CDouble.finite 0 := by
  refine ⟨rfl, ?_, ?_⟩ <;>
    simp [Statistics, new, CDouble.div, CDouble.ofNat, Time.GetSeconds]

/-- C1, as amended: with no packet received (and a non-zero expected count)
`Statistics` reports a delivery ratio of exactly `0`; the average latency is
the unguarded quotient of the latency total by zero, that is `nan` for a zero
total and an infinity of the sign of the total otherwise, and never `0`. -/
theorem Statistics_zero_received (s : RoutingExperiment) (nodes : Int)
    (h0 : s.packetsReceived = 0) (ht : (s.packetsTotal * 10) % UINT32_MOD ≠ 0) :
    (Statistics s nodes).1.PDR = CDouble.finite 0 ∧
    (Statistics s nodes).1.averageTime
      = (if s.totalTime = 0 then CDouble.nan
         else if 0 < s.totalTime then CDouble.posInf else CDouble.negInf) ∧
    (Statistics s nodes).1.averageTime ≠ CDouble.finite 0 := by
  have hPDR : (Statistics s nodes).1.PDR = CDouble.finite 0 := by
    have htq : ((s.packetsTotal * 10 % UINT32_MOD : Nat) : ℚ) ≠ 0 := by exact_mod_cast ht
    simp [Statistics_PDR, h0, CDouble.div, CDouble.ofNat, htq]
  have havg : (Statistics s nodes).1.averageTime
      = (if s.totalTime = 0 then CDouble.nan
         else if 0 < s.totalTime then CDouble.posInf else CDouble.negInf) := by
    rw [Statistics_averageTime, h0]
    by_cases hz : s.totalTime = 0
    · simp [CDouble.div, CDouble.ofNat, Time.GetSeconds, hz]
    · have hq : ((s.totalTime : ℚ) / 1000000000) ≠ 0 := by
        have : (s.totalTime : ℚ) ≠ 0 := by exact_mod_cast hz
        positivity
      have hpos : (0 < (s.totalTime : ℚ) / 1000000000) ↔ 0 < s.totalTime := by
        rw [div_pos_iff_of_pos_right (by norm_num)]
        exact_mod_cast Iff.rfl
      simp only [CDouble.div, CDouble.ofNat, Time.GetSeconds, Nat.cast_zero, if_true, hq,
        if_false, hpos, hz]
  refine ⟨hPDR, havg, ?_⟩
  rw [havg]
  split_ifs <;> simp

/-- C1, witness: the amended statement at the state the constructor builds. -/
theorem Statistics_zero_received_witness :
    (Statistics (new 10 (.finite 20)) 50).1.PDR = CDouble.finite 0 ∧
    (Statistics (new 10 (.finite 20)) 50).1.averageTime
      = (if (new 10 (.finite 20)).totalTime = 0 then CDouble.nan
         else if 0 < (new 10 (.finite 20)).totalTime then CDouble.posInf else CDouble.negInf) ∧
    (Statistics (new 10 (.finite 20)) 50).1.averageTime ≠ CDouble.finite 0 :=
  Statistics_zero_received (new 10 (.finite 20)) 50 rfl (by decide)

/-- C2, counterexample: after the constructor, one callback that drains 1001
packets makes `Statistics` report 1001 packets received against 1000 expected
and a delivery ratio of 1001/1000, outside `[0, 1]`. -/
theorem Statistics_ratio_counterexample :
    (Statistics (deliver (new 10 (.finite 20))
        [(0, List.replicate 1001 ⟨64, none⟩)]) 50).1.totalReceivedPackets = 1001 ∧
    (Statistics (deliver (new 10 (.finite 20))
        [(0, List.replicate 1001 ⟨64, none⟩)]) 50).1.totalPackets = 1000 ∧
    ¬ (Statistics (deliver (new 10 (.finite 20))
        [(0, List.replicate 1001 ⟨64, none⟩)]) 50).1.PDR.inUnitInterval := by
  have hr : (deliver (new 10 (.finite 20))
      [(0, List.replicate 1001 ⟨64, none⟩)]).packetsReceived = 1001 := by
    rw [deliver_packetsReceived _ _ (by decide)]
    simp only [packetCount, List.map_cons, List.map_nil, List.sum_cons, List.sum_nil,
      List.length_replicate]
    rfl
  have ht : (deliver (new 10 (.finite 20))
      [(0, List.replicate 1001 ⟨64, none⟩)]).packetsTotal = 100 :=
    deliver_packetsTotal _ _
  refine ⟨?_, ?_, ?_⟩
  · rw [Statistics_totalReceivedPackets, hr]
  · rw [Statistics_totalPackets, ht]; rfl
  · rw [Statistics_PDR, hr, ht]
    norm_num [CDouble.div, CDouble.ofNat, CDouble.inUnitInterval, UINT32_MOD]

/-- C2, as amended: when the packets delivered in a run, added to the counter
the run starts from, do not exceed the expected count `packetsTotal * 10`
(itself a non-zero `uint32_t` value), the count that `Statistics` reports is
that sum, it is at most the expected count, and the delivery ratio lies in
`[0, 1]`. The collector itself enforces no such bound. -/
theorem Statistics_ratio_bounded (s : RoutingExperiment) (nodes : Int)
    (deliveries : List (Int × List Packet))
    (hpos : 0 < s.packetsTotal * 10) (hlt : s.packetsTotal * 10 < UINT32_MOD)
    (hle : s.packetsReceived + packetCount deliveries ≤ s.packetsTotal * 10) :
    (Statistics (deliver s deliveries) nodes).1.totalReceivedPackets
      = s.packetsReceived + packetCount deliveries ∧
    (Statistics (deliver s deliveries) nodes).1.totalReceivedPackets
      ≤ (Statistics (deliver s deliveries) nodes).1.totalPackets ∧
    (Statistics (deliver s deliveries) nodes).1.PDR.inUnitInterval := by
  have hs : s.packetsReceived < UINT32_MOD := by omega
  have hr : (deliver s deliveries).packetsReceived
      = s.packetsReceived + packetCount deliveries := by
    rw [deliver_packetsReceived s deliveries hs]
    exact Nat.mod_eq_of_lt (by omega)
  have ht : (deliver s deliveries).packetsTotal * 10 % UINT32_MOD = s.packetsTotal * 10 := by
    rw [deliver_packetsTotal]
    exact Nat.mod_eq_of_lt hlt
  refine ⟨?_, ?_, ?_⟩
  · rw [Statistics_totalReceivedPackets, hr]
  · rw [Statistics_totalReceivedPackets, Statistics_totalPackets, ht, hr]; exact hle
  · rw [Statistics_PDR, ht, hr]
    have hq : ((s.packetsTotal * 10 : Nat) : ℚ) ≠ 0 := by exact_mod_cast Nat.ne_of_gt hpos
    have hq0 : (0 : ℚ) < ((s.packetsTotal * 10 : Nat) : ℚ) := by exact_mod_cast hpos
    simp only [CDouble.div, CDouble.ofNat, hq, if_false, CDouble.inUnitInterval]
    constructor
    · positivity
    · rw [div_le_one hq0]
      exact_mod_cast hle

/-- C2, witness: the amended statement for a first run in which two callbacks
deliver three packets. -/
theorem Statistics_ratio_bounded_witness :
    (Statistics (deliver (new 10 (.finite 20))
        [(5, [⟨64, some 3⟩, ⟨64, none⟩]), (7, [⟨64, some 4⟩])]) 50).1.totalReceivedPackets
      = (new 10 (.finite 20)).packetsReceived
        + packetCount [(5, [⟨64, some 3⟩, ⟨64, none⟩]), (7, [⟨64, some 4⟩])] ∧
    (Statistics (deliver (new 10 (.finite 20))
        [(5, [⟨64, some 3⟩, ⟨64, none⟩]), (7, [⟨64, some 4⟩])]) 50).1.totalReceivedPackets
      ≤ (Statistics (deliver (new 10 (.finite 20))
        [(5, [⟨64, some 3⟩, ⟨64, none⟩]), (7, [⟨64, some 4⟩])]) 50).1.totalPackets ∧
    (Statistics (deliver (new 10 (.finite 20))
        [(5, [⟨64, some 3⟩, ⟨64, none⟩]), (7, [⟨64, some 4⟩])]) 50).1.PDR.inUnitInterval :=
  Statistics_ratio_bounded (new 10 (.finite 20)) 50
    [(5, [⟨64, some 3⟩, ⟨64, none⟩]), (7, [⟨64, some 4⟩])]
    (by decide) (by decide) (by decide)

/-- What `Statistics` does to the three accumulators, in every state. -/
theorem Statistics_accumulators (s : RoutingExperiment) (nodes : Int) :
    (Statistics s nodes).2.packetsReceived = 0 ∧
    (Statistics s nodes).2.totalTime = 0 ∧
    (Statistics s nodes).2.bytesTotal = s.bytesTotal :=
  ⟨rfl, rfl, rfl⟩

/-- C7, the code at the failing input: after one packet of 64 bytes has been
received, `Statistics` zeroes `packetsReceived` and `totalTime` and leaves
`bytesTotal` at 64. -/
theorem Statistics_keeps_bytesTotal :
    (ReceivePacket (new 10 (.finite 20)) 5 [⟨64, some 3⟩]).bytesTotal = 64 ∧
    (Statistics (ReceivePacket (new 10 (.finite 20)) 5 [⟨64, some 3⟩]) 20).2.bytesTotal = 64 ∧
    (Statistics (ReceivePacket (new 10 (.finite 20)) 5 [⟨64, some 3⟩]) 20).2.packetsReceived = 0 ∧
    (Statistics (ReceivePacket (new 10 (.finite 20)) 5 [⟨64, some 3⟩]) 20).2.totalTime = 0 := by
  decide

/-- The constructor sets the expected count per sink to 100. -/
theorem new_packetsTotal (nSinks0 : Int) (txp0 : CDouble) :
    (new nSinks0 txp0).packetsTotal = 100 := rfl

/-- `CheckThroughput` leaves the expected count per sink alone. -/
theorem CheckThroughput_packetsTotal (s : RoutingExperiment) (now : Int) :
    (CheckThroughput s now).2.1.packetsTotal = s.packetsTotal := rfl

/-- `Statistics` leaves the expected count per sink alone. -/
theorem Statistics_packetsTotal (s : RoutingExperiment) (nodes : Int) :
    (Statistics s nodes).2.packetsTotal = s.packetsTotal := rfl

/-- C8: with the expected count of 100 packets per sink that the constructor
sets (and that no operation changes), the row of `Statistics` shows the node
count it was given and `TotalPackets = 1000`; when `packetsReceived` is 1000 it
shows 1000 received packets and `PDR = 1`. -/
theorem Statistics_total_packets (s : RoutingExperiment) (nodes : Int)
    (hs : s.packetsTotal = 100) :
    (Statistics s nodes).1.totalPackets = 1000 ∧
    (Statistics s nodes).1.nodeCounts = nodes ∧
    (s.packetsReceived = 1000 →
      (Statistics s nodes).1.totalReceivedPackets = 1000 ∧
      (Statistics s nodes).1.PDR = CDouble.finite 1) := by
  refine ⟨?_, rfl, ?_⟩
  · rw [Statistics_totalPackets, hs]; rfl
  · intro hr
    refine ⟨by rw [Statistics_totalReceivedPackets, hr], ?_⟩
    rw [Statistics_PDR, hs, hr]
    norm_num [CDouble.div, CDouble.ofNat, UINT32_MOD]

/-- C8, witness: a first run with 50 nodes in which all 1000 packets arrive. -/
theorem Statistics_total_packets_witness :
    (Statistics (ReceivePacket (new 10 (.finite 20)) 5
        (List.replicate 1000 ⟨64, some 3⟩)) 50).1.totalPackets = 1000 ∧
    (Statistics (ReceivePacket (new 10 (.finite 20)) 5
        (List.replicate 1000 ⟨64, some 3⟩)) 50).1.PDR = CDouble.finite 1 :=
  have h := Statistics_total_packets
    (ReceivePacket (new 10 (.finite 20)) 5 (List.replicate 1000 ⟨64, some 3⟩)) 50
    (ReceivePacket_packetsTotal _ _ _)
  have hr : (ReceivePacket (new 10 (.finite 20)) 5
      (List.replicate 1000 ⟨64, some 3⟩)).packetsReceived = 1000 := by
    rw [ReceivePacket_packetsReceived _ _ _ (by decide), List.length_replicate]
    rfl
  ⟨h.1, (h.2.2 hr).2⟩

/-- C9: the row of `CheckThroughput` carries `bytesTotal * 8 / 1000` as its
throughput and `packetsReceived` as its packet count, both as they were before
the call; the call leaves `bytesTotal = 0` and `packetsReceived = 0`, touches
neither `totalTime` nor `packetsTotal`, and schedules itself one second
later. -/
theorem CheckThroughput_row (s : RoutingExperiment) (now : Int) :
    (CheckThroughput s now).1.receiveRate = CDouble.finite ((s.bytesTotal : ℚ) * 8 / 1000) ∧
    (CheckThroughput s now).1.packetsReceived = s.packetsReceived ∧
    (CheckThroughput s now).2.1.bytesTotal = 0 ∧
    (CheckThroughput s now).2.1.packetsReceived = 0 ∧
    (CheckThroughput s now).2.1.totalTime = s.totalTime ∧
    (CheckThroughput s now).2.1.packetsTotal = s.packetsTotal ∧
    (CheckThroughput s now).2.2 = 1 := by
  refine ⟨?_, rfl, rfl, rfl, rfl, rfl, rfl⟩
  simp [CheckThroughput, CDouble.div, CDouble.mul, CDouble.ofNat]

end RoutingExperiment

/-! ## The run controller -/

namespace RoutingExperiment

/-- An `int` selector outside `1 .. 6` is a `uint32_t` that is `0` or at least `7`. -/
theorem toUint32_outside (protocol : Int)
    (hlo : -2147483648 ≤ protocol) (hhi : protocol ≤ 2147483647)
    (hout : protocol < 1 ∨ 6 < protocol) :
    toUint32 protocol = 0 ∨ 7 ≤ toUint32 protocol := by
  unfold toUint32
  omega

/-- An `int` selector inside `1 .. 6` keeps its value as a `uint32_t`. -/
theorem toUint32_inside (protocol : Int) (h1 : 1 ≤ protocol) (h6 : protocol ≤ 6) :
    1 ≤ toUint32 protocol ∧ toUint32 protocol ≤ 6 := by
  unfold toUint32
  omega

/-- The `default` label of the switch is taken by `0` and by every value from `7` on. -/
theorem protocolSwitch_default (m : Nat) (h : m = 0 ∨ 7 ≤ m) :
    protocolSwitch m = .error (.fatalError ("No such protocol:" ++ toString m)) := by
  rcases h with rfl | h
  · rfl
  · obtain ⟨k, rfl⟩ := Nat.exists_eq_add_of_le h
    rw [Nat.add_comm]
    rfl

/-- The values `1 .. 6` each have a `case` label of their own. -/
theorem protocolSwitch_case (m : Nat) (h1 : 1 ≤ m) (h6 : m ≤ 6) :
    ∃ r, protocolSwitch m = .ok r := by
  have hm : m = 1 ∨ m = 2 ∨ m = 3 ∨ m = 4 ∨ m = 5 ∨ m = 6 := by omega
  rcases hm with rfl | rfl | rfl | rfl | rfl | rfl <;> exact ⟨_, rfl⟩

/-- C3, counterexample: `Run` with selector 7 on 20 nodes ends in the fatal
error, but only after it has created the 20 nodes, the channel and the devices
and has installed the mobility model. -/
theorem Run_fatal_after_setup_counterexample :
    (Run (new 10 (.finite 20)) 10 (.finite 20) "out.csv" 7 20 []).fault
      = some (.fatalError "No such protocol:7") ∧
    (Run (new 10 (.finite 20)) 10 (.finite 20) "out.csv" 7 20 []).steps
      = [.createNodes 20, .createChannel, .installDevices, .installMobility] := by
  decide

/-- C3, as amended: for every `int` selector outside `1 .. 6`, `Run` ends in
the fatal error "No such protocol" after the nodes, the channel and the
devices have been created and the mobility model installed, and before the
internet stack and the routing protocol are installed, addresses assigned,
traffic set up or a statistics row written; for every selector inside
`1 .. 6` the switch raises no fatal error and `Run` goes on to install the
internet stack. -/
theorem Run_unknown_protocol (s : RoutingExperiment) (nSinks : Int) (txp : CDouble)
    (CSVfileName : String) (protocol : Int) (nodes : Int)
    (deliveries : List (Int × List Packet))
    (hlo : -2147483648 ≤ protocol) (hhi : protocol ≤ 2147483647) :
    (protocol < 1 ∨ 6 < protocol →
      (Run s nSinks txp CSVfileName protocol nodes deliveries).fault
        = some (.fatalError ("No such protocol:" ++ toString (toUint32 protocol))) ∧
      (Run s nSinks txp CSVfileName protocol nodes deliveries).steps
        = [.createNodes nodes, .createChannel, .installDevices, .installMobility] ∧
      (Run s nSinks txp CSVfileName protocol nodes deliveries).row = none) ∧
    (1 ≤ protocol ∧ protocol ≤ 6 →
      (∃ r, protocolSwitch (toUint32 protocol) = .ok r) ∧
      (Run s nSinks txp CSVfileName protocol nodes deliveries).fault = none ∧
      SetupStep.installInternet
        ∈ (Run s nSinks txp CSVfileName protocol nodes deliveries).steps) := by
  constructor
  · intro hout
    have h := protocolSwitch_default _ (toUint32_outside protocol hlo hhi hout)
    simp only [Run, h, and_self]
  · rintro ⟨h1, h6⟩
    have hin := toUint32_inside protocol h1 h6
    obtain ⟨r, hr⟩ := protocolSwitch_case _ hin.1 hin.2
    refine ⟨⟨r, hr⟩, ?_, ?_⟩
    · simp only [Run, hr]
    · have hstack : SetupStep.installInternet ∈ installStack (toUint32 protocol) := by
        have hm : toUint32 protocol = 1 ∨ toUint32 protocol = 2 ∨ toUint32 protocol = 3 ∨
            toUint32 protocol = 4 ∨ toUint32 protocol = 5 ∨ toUint32 protocol = 6 := by omega
        rcases hm with e | e | e | e | e | e <;> rw [e] <;> decide
      simp only [Run, hr, List.mem_append]
      exact Or.inl (Or.inl (Or.inl (Or.inr hstack)))

/-- C3, witness: the amended statement at selector 7, with 20 nodes. -/
theorem Run_unknown_protocol_witness :
    (Run (new 10 (.finite 20)) 10 (.finite 20) "out.csv" 7 20 []).fault
      = some (.fatalError ("No such protocol:" ++ toString (toUint32 7))) ∧
    (Run (new 10 (.finite 20)) 10 (.finite 20) "out.csv" 7 20 []).steps
      = [.createNodes 20, .createChannel, .installDevices, .installMobility] ∧
    (Run (new 10 (.finite 20)) 10 (.finite 20) "out.csv" 7 20 []).row = none :=
  (Run_unknown_protocol (new 10 (.finite 20)) 10 (.finite 20) "out.csv" 7 20 []
    (by decide) (by decide)).1 (Or.inr (by decide))

end RoutingExperiment

/-! ## The installer of the power-adaptive router -/

namespace MyGpsrHelper

/-- The first loop's body succeeds exactly on a node with both instances, and
then makes the splice. -/
theorem spliceNode_ok (i : Nat) (node node1 : Node) (h : spliceNode i node = .ok node1) :
    ∃ udp r, node.udp = some udp ∧ node.mygpsr = some r ∧
      node1 = { udp := some { downTarget := .addHeaders i },
                mygpsr := some { downTarget := udp.downTarget } } := by
  unfold spliceNode at h
  cases hu : node.udp with
  | none => simp [hu] at h
  | some udp =>
    cases hr : node.mygpsr with
    | none => simp [hu, hr] at h
    | some r =>
      simp only [hu, hr, Except.ok.injEq] at h
      exact ⟨udp, r, rfl, rfl, h.symm⟩

/-- The first loop's body on a node with both instances. -/
theorem spliceNode_ready (i : Nat) (node : Node) (h : nodeReady node = true) :
    ∃ node1, spliceNode i node = .ok node1 := by
  unfold nodeReady at h
  unfold spliceNode
  cases hu : node.udp with
  | none => simp [hu] at h
  | some udp =>
    cases hr : node.mygpsr with
    | none => simp [hr] at h
    | some r => exact ⟨_, rfl⟩

/-- The first loop's body stops, at a null dereference, exactly on a node that
lacks an instance. -/
theorem spliceNode_error (i : Nat) (node : Node) (f : Fault) (h : spliceNode i node = .error f) :
    f = .nullDereference ∧ nodeReady node = false := by
  unfold spliceNode at h
  unfold nodeReady
  cases hu : node.udp with
  | none =>
    simp only [hu, Except.error.injEq] at h
    exact ⟨h.symm, by simp⟩
  | some udp =>
    cases hr : node.mygpsr with
    | none =>
      simp only [hu, hr, Except.error.injEq] at h
      exact ⟨h.symm, by simp⟩
    | some r => simp [hu, hr] at h

/-- The first loop runs to its end when every node has both instances. -/
theorem spliceLoop_ready (i : Nat) (nodes : List Node)
    (hc : ∀ node ∈ nodes, nodeReady node = true) :
    ∃ nodes1, spliceLoop i nodes = .ok nodes1 := by
  induction nodes generalizing i with
  | nil => exact ⟨[], rfl⟩
  | cons node rest ih =>
    obtain ⟨node1, h1⟩ := spliceNode_ready i node (hc node (List.mem_cons_self _ _))
    obtain ⟨rest1, h2⟩ := ih (i + 1) (fun n hn => hc n (List.mem_cons_of_mem _ hn))
    exact ⟨node1 :: rest1, by simp [spliceLoop, h1, h2]⟩

/-- The nodes after a first loop that ran to its end: as many as before, each
with its routing instance pointing at the transport's former target and its
transport pointing at the routing instance's `AddHeaders`. -/
theorem spliceLoop_ok (i : Nat) (nodes nodes1 : List Node) (h : spliceLoop i nodes = .ok nodes1) :
    nodes1.length = nodes.length ∧
    ∀ k node, nodes[k]? = some node →
      ∃ udp r, node.udp = some udp ∧ node.mygpsr = some r ∧
        nodes1[k]? = some (Node.mk (some (UdpL4Protocol.mk (.addHeaders (i + k))))
                        (some (RoutingProtocol.mk udp.downTarget))) := by
  induction nodes generalizing i nodes1 with
  | nil =>
    simp only [spliceLoop, Except.ok.injEq] at h
    subst h
    exact ⟨rfl, by simp⟩
  | cons node rest ih =>
    unfold spliceLoop at h
    cases h1 : spliceNode i node with
    | error f => simp [h1] at h
    | ok node1 =>
      cases h2 : spliceLoop (i + 1) rest with
      | error e => simp [h1, h2] at h
      | ok rest1 =>
        simp only [h1, h2, Except.ok.injEq] at h
        subst h
        obtain ⟨hlen, hget⟩ := ih (i + 1) rest1 h2
        refine ⟨by simp [hlen], ?_⟩
        intro k n hk
        cases k with
        | zero =>
          simp only [List.getElem?_cons_zero, Option.some.injEq] at hk
          subst hk
          obtain ⟨udp, r, hu, hr, hn⟩ := spliceNode_ok i _ node1 h1
          exact ⟨udp, r, hu, hr, by simp [hn]⟩
        | succ k =>
          simp only [List.getElem?_cons_succ] at hk
          obtain ⟨udp, r, hu, hr, hn⟩ := hget k n hk
          refine ⟨udp, r, hu, hr, ?_⟩
          simp only [List.getElem?_cons_succ, hn]
          have e : i + 1 + k = i + (k + 1) := by omega
          rw [e]

/-- Every node after a first loop that ran to its end has a routing instance. -/
theorem spliceLoop_ok_mygpsr (i : Nat) (nodes nodes1 : List Node)
    (h : spliceLoop i nodes = .ok nodes1) :
    ∀ node ∈ nodes1, node.mygpsr.isSome = true := by
  intro node hmem
  obtain ⟨k, hk⟩ := List.getElem?_of_mem hmem
  obtain ⟨hlen, hget⟩ := spliceLoop_ok i nodes nodes1 h
  have hlt : k < nodes.length := by
    rw [← hlen]
    by_contra hge
    rw [List.getElem?_eq_none (by omega)] at hk
    cases hk
  obtain ⟨udp, r, _, _, hn⟩ := hget k nodes[k] (List.getElem?_eq_getElem hlt)
  rw [hk, Option.some.injEq] at hn
  rw [hn]
  rfl

/-- A first loop that stops does so at a null dereference, and some node lacks
an instance. -/
theorem spliceLoop_error (i : Nat) (nodes nodes1 : List Node) (f : Fault)
    (h : spliceLoop i nodes = .error (f, nodes1)) :
    f = .nullDereference ∧ ∃ node ∈ nodes, nodeReady node = false := by
  induction nodes generalizing i nodes1 f with
  | nil => simp [spliceLoop] at h
  | cons node rest ih =>
    unfold spliceLoop at h
    cases h1 : spliceNode i node with
    | error f1 =>
      simp only [h1, Except.error.injEq, Prod.mk.injEq] at h
      obtain ⟨hf, hnr⟩ := spliceNode_error i node f1 h1
      exact ⟨h.1 ▸ hf, node, List.mem_cons_self _ _, hnr⟩
    | ok node1 =>
      cases h2 : spliceLoop (i + 1) rest with
      | ok rest1 => simp [h1, h2] at h
      | error e =>
        obtain ⟨f2, rest1⟩ := e
        simp only [h1, h2, Except.error.injEq, Prod.mk.injEq] at h
        obtain ⟨hf, n, hn, hnr⟩ := ih (i + 1) rest1 f2 h2
        exact ⟨h.1 ▸ hf, n, List.mem_cons_of_mem _ hn, hnr⟩

/-- The first loop stops at a null dereference when some node lacks an instance. -/
theorem spliceLoop_not_ready (i : Nat) (nodes : List Node)
    (hc : ∃ node ∈ nodes, nodeReady node = false) :
    ∃ nodes1, spliceLoop i nodes = .error (.nullDereference, nodes1) := by
  cases h : spliceLoop i nodes with
  | error e =>
    obtain ⟨f, nodes1⟩ := e
    obtain ⟨hf, _⟩ := spliceLoop_error i nodes nodes1 f h
    exact ⟨nodes1, by rw [hf]⟩
  | ok nodes1 =>
    exfalso
    obtain ⟨node, hmem, hnr⟩ := hc
    obtain ⟨k, hk⟩ := List.getElem?_of_mem hmem
    obtain ⟨udp, r, hu, hr, _⟩ := (spliceLoop_ok i nodes nodes1 h).2 k node hk
    simp [nodeReady, hu, hr] at hnr

/-- The second loop's body succeeds on a device of the expected kind. -/
theorem wireDevice_ready (nodes : List Node) (d : NetDevice)
    (h : deviceReady nodes.length d = true) : ∃ d1, wireDevice nodes d = .ok d1 := by
  unfold deviceReady at h
  unfold wireDevice
  cases hw : d.wifi with
  | none => simp [hw] at h
  | some device =>
    cases hp : device.phy with
    | none => simp [hw, hp] at h
    | some wifiPhy =>
      cases hn : device.node with
      | none => simp [hw, hp, hn] at h
      | some id =>
        cases hy : wifiPhy.yans with
        | none => simp [hw, hp, hn, hy] at h
        | some yans =>
          simp only [hw, hp, hn, hy, Option.isSome_some, Bool.true_and, decide_eq_true_eq] at h
          have hget : nodes.get? id = some (nodes[id]) := by
            simp [List.getElem?_eq_getElem h]
          simp only [hw, hp, hn, hy, hget]
          exact ⟨_, rfl⟩

/-- The second loop's body stops only at a null dereference, and only on a
device that is not of the expected kind. -/
theorem wireDevice_error (nodes : List Node) (d : NetDevice) (f : Fault)
    (h : wireDevice nodes d = .error f) :
    f = .nullDereference ∧ deviceReady nodes.length d = false := by
  have hf : f = .nullDereference := by
    unfold wireDevice at h
    split at h
    · exact (Except.error.inj h).symm
    · split at h
      · exact (Except.error.inj h).symm
      · split at h
        · exact (Except.error.inj h).symm
        · split at h
          · exact (Except.error.inj h).symm
          · simp only at h
            split at h
            · exact (Except.error.inj h).symm
            · cases h
  refine ⟨hf, ?_⟩
  by_contra hr
  obtain ⟨d1, hd1⟩ := wireDevice_ready nodes d (by simpa using hr)
  rw [hd1] at h
  cases h

/-- What the second loop's body has found and stored when it succeeds. -/
theorem wireDevice_ok (nodes : List Node) (d d1 : NetDevice)
    (h : wireDevice nodes d = .ok d1) :
    ∃ device wifiPhy id node yans,
      d.wifi = some device ∧ device.phy = some wifiPhy ∧ device.node = some id ∧
      nodes[id]? = some node ∧ wifiPhy.yans = some yans ∧
      d1 = NetDevice.mk (some (WifiNetDevice.mk
        (some (WifiPhy.mk (some (YansWifiPhy.mk
          (CrossLayer.updatePowerAndRange (node.mygpsr.map (fun _ => id)))))))
        (some id))) := by
  unfold wireDevice at h
  cases hw : d.wifi with
  | none => simp [hw] at h
  | some device =>
    cases hp : device.phy with
    | none => simp [hw, hp] at h
    | some wifiPhy =>
      cases hn : device.node with
      | none => simp [hw, hp, hn] at h
      | some id =>
        cases hg : nodes[id]? with
        | none => simp [hw, hp, hn, hg] at h
        | some node =>
          cases hy : wifiPhy.yans with
          | none => simp [hw, hp, hn, hg, hy] at h
          | some yans =>
            simp only [hw, hp, hn, hg, hy, List.get?_eq_getElem?, Except.ok.injEq] at h
            exact ⟨device, wifiPhy, id, node, yans, rfl, hp, hn, hg, hy, h.symm⟩

/-- The callback that the second loop's body stores is bound to a routing
instance when every node has one. -/
theorem wireDevice_feedback (nodes : List Node) (d d1 : NetDevice)
    (hn : ∀ node ∈ nodes, node.mygpsr.isSome = true) (h : wireDevice nodes d = .ok d1) :
    danglingFeedback d1 = false := by
  obtain ⟨device, wifiPhy, id, node, yans, _, _, _, hg, _, rfl⟩ := wireDevice_ok nodes d d1 h
  obtain ⟨r, hr⟩ := Option.isSome_iff_exists.mp (hn node (List.getElem?_mem hg))
  simp [danglingFeedback, feedbackOf, hr]

/-- A device that the second loop's body has wired is of the expected kind. -/
theorem wireDevice_ok_ready (nodes : List Node) (d d1 : NetDevice)
    (h : wireDevice nodes d = .ok d1) : deviceReady nodes.length d1 = true := by
  obtain ⟨device, wifiPhy, id, node, yans, _, _, _, hg, _, rfl⟩ := wireDevice_ok nodes d d1 h
  have hlt : id < nodes.length := by
    by_contra hge
    rw [List.getElem?_eq_none (by omega)] at hg
    cases hg
  simp [deviceReady, hlt]

/-- A device that the second loop's body accepts is of the expected kind. -/
theorem wireDevice_ok_input (nodes : List Node) (d d1 : NetDevice)
    (h : wireDevice nodes d = .ok d1) : deviceReady nodes.length d = true := by
  obtain ⟨device, wifiPhy, id, node, yans, hw, hp, hn, hg, hy, _⟩ := wireDevice_ok nodes d d1 h
  have hlt : id < nodes.length := by
    by_contra hge
    rw [List.getElem?_eq_none (by omega)] at hg
    cases hg
  simp [deviceReady, hw, hp, hn, hy, hlt]

/-- The second loop runs to its end when every device is of the expected kind. -/
theorem wireLoop_ready (nodes : List Node) (ds : List NetDevice)
    (hd : ∀ d ∈ ds, deviceReady nodes.length d = true) :
    ∃ ds1, wireLoop nodes ds = .ok ds1 := by
  induction ds with
  | nil => exact ⟨[], rfl⟩
  | cons d rest ih =>
    obtain ⟨d1, h1⟩ := wireDevice_ready nodes d (hd d (List.mem_cons_self _ _))
    obtain ⟨rest1, h2⟩ := ih (fun x hx => hd x (List.mem_cons_of_mem _ hx))
    exact ⟨d1 :: rest1, by simp [wireLoop, h1, h2]⟩

/-- The devices after a second loop that ran to its end are of the expected
kind. -/
theorem wireLoop_ok (nodes : List Node) (ds ds1 : List NetDevice)
    (h : wireLoop nodes ds = .ok ds1) :
    ∀ d1 ∈ ds1, deviceReady nodes.length d1 = true := by
  induction ds generalizing ds1 with
  | nil =>
    simp only [wireLoop, Except.ok.injEq] at h
    subst h
    simp
  | cons d rest ih =>
    unfold wireLoop at h
    cases h1 : wireDevice nodes d with
    | error f => simp [h1] at h
    | ok d1 =>
      cases h2 : wireLoop nodes rest with
      | error e => simp [h1, h2] at h
      | ok rest1 =>
        simp only [h1, h2, Except.ok.injEq] at h
        subst h
        intro x hx
        rcases List.mem_cons.mp hx with rfl | hx
        · exact wireDevice_ok_ready nodes d _ h1
        · exact ih rest1 h2 x hx

/-- A second loop that stops does so at a null dereference, some device is not
of the expected kind, and, when every node has a routing instance, a device
whose callback is bound to a null routing instance was so before the loop. -/
theorem wireLoop_error (nodes : List Node) (ds ds1 : List NetDevice) (f : Fault)
    (h : wireLoop nodes ds = .error (f, ds1)) :
    f = .nullDereference ∧ (∃ d ∈ ds, deviceReady nodes.length d = false) ∧
    ((∀ node ∈ nodes, node.mygpsr.isSome = true) →
      ∀ d1 ∈ ds1, danglingFeedback d1 = true → d1 ∈ ds) := by
  induction ds generalizing ds1 f with
  | nil => simp [wireLoop] at h
  | cons d rest ih =>
    unfold wireLoop at h
    cases h1 : wireDevice nodes d with
    | error f1 =>
      simp only [h1, Except.error.injEq, Prod.mk.injEq] at h
      obtain ⟨hf, hnr⟩ := wireDevice_error nodes d f1 h1
      obtain ⟨rfl, rfl⟩ := h
      exact ⟨hf, ⟨d, List.mem_cons_self _ _, hnr⟩, fun _ d1 hd1 _ => hd1⟩
    | ok d1 =>
      cases h2 : wireLoop nodes rest with
      | ok rest1 => simp [h1, h2] at h
      | error e =>
        obtain ⟨f2, rest1⟩ := e
        simp only [h1, h2, Except.error.injEq, Prod.mk.injEq] at h
        obtain ⟨rfl, rfl⟩ := h
        obtain ⟨hf, ⟨x, hx, hxr⟩, hdang⟩ := ih rest1 f2 h2
        refine ⟨hf, ⟨x, List.mem_cons_of_mem _ hx, hxr⟩, ?_⟩
        intro hn y hy hyd
        rcases List.mem_cons.mp hy with rfl | hy
        · rw [wireDevice_feedback nodes d _ hn h1] at hyd
          cases hyd
        · exact List.mem_cons_of_mem _ (hdang hn y hy hyd)

/-- The second loop stops at a null dereference when some device is not of the
expected kind. -/
theorem wireLoop_not_ready (nodes : List Node) (ds : List NetDevice)
    (hd : ∃ d ∈ ds, deviceReady nodes.length d = false) :
    ∃ ds1, wireLoop nodes ds = .error (.nullDereference, ds1) := by
  cases h : wireLoop nodes ds with
  | error e =>
    obtain ⟨f, ds1⟩ := e
    obtain ⟨hf, _⟩ := wireLoop_error nodes ds ds1 f h
    exact ⟨ds1, by rw [hf]⟩
  | ok ds1 =>
    exfalso
    obtain ⟨d, hmem, hnr⟩ := hd
    have hall : ∀ ds ds1, wireLoop nodes ds = .ok ds1 →
        ∀ x ∈ ds, deviceReady nodes.length x = true := by
      intro ds
      induction ds with
      | nil => intro _ _ x hx; cases hx
      | cons y rest ih =>
        intro ds1 hok x hx
        unfold wireLoop at hok
        cases h1 : wireDevice nodes y with
        | error f => simp [h1] at hok
        | ok y1 =>
          cases h2 : wireLoop nodes rest with
          | error e => simp [h1, h2] at hok
          | ok rest1 =>
            rcases List.mem_cons.mp hx with rfl | hx
            · by_contra hnot
              have hfalse : deviceReady nodes.length x = false := by simpa using hnot
              have herr : wireDevice nodes x = .error .nullDereference := by
                cases hx1 : wireDevice nodes x with
                | error f => rw [(wireDevice_error nodes x f hx1).1]
                | ok z => rw [wireDevice_ok_input nodes x z hx1] at hfalse; cases hfalse
              rw [herr] at h1
              cases h1
            · exact ih rest1 h2 x hx
    rw [hall ds ds1 h d hmem] at hnr
    cases hnr

/-- `Install` runs to its end when every node has both instances and every
device is of the expected kind, and then its nodes are those of the first
loop. -/
theorem Install_ready (nodes : List Node) (device : List NetDevice)
    (hc : ∀ node ∈ nodes, nodeReady node = true)
    (hd : ∀ d ∈ device, deviceReady nodes.length d = true) :
    ∃ nodes1 device1, Install nodes device = .ok nodes1 device1 ∧
      spliceLoop 0 nodes = .ok nodes1 ∧ wireLoop nodes1 device = .ok device1 := by
  obtain ⟨nodes1, h1⟩ := spliceLoop_ready 0 nodes hc
  have hlen := (spliceLoop_ok 0 nodes nodes1 h1).1
  obtain ⟨device1, h2⟩ := wireLoop_ready nodes1 device (by rw [hlen]; exact hd)
  exact ⟨nodes1, device1, by simp [Install, h1, h2], h1, h2⟩

/-- C4: when every node has a transport and a routing instance and every
device is of the expected kind, `Install` runs to its end, and for every node
`i` whose transport had the down target `d0`, the routing instance's down
target is then `d0` and the transport's down target is the `AddHeaders` entry
point of that node's routing instance. -/
theorem Install_splices (nodes : List Node) (device : List NetDevice)
    (hc : ∀ node ∈ nodes, nodeReady node = true)
    (hd : ∀ d ∈ device, deviceReady nodes.length d = true) :
    ∃ (nodes1 : List Node) (device1 : List NetDevice),
      Install nodes device = .ok nodes1 device1 ∧
      nodes1.length = nodes.length ∧
      ∀ (i : Nat) (node : Node) (udp : UdpL4Protocol) (r : RoutingProtocol),
        nodes[i]? = some node → node.udp = some udp → node.mygpsr = some r →
        ∃ (node1 : Node) (udp1 : UdpL4Protocol) (r1 : RoutingProtocol),
          nodes1[i]? = some node1 ∧ node1.udp = some udp1 ∧
          node1.mygpsr = some r1 ∧ r1.downTarget = udp.downTarget ∧
          udp1.downTarget = .addHeaders i := by
  obtain ⟨nodes1, device1, hI, h1, _⟩ := Install_ready nodes device hc hd
  obtain ⟨hlen, hget⟩ := spliceLoop_ok 0 nodes nodes1 h1
  refine ⟨nodes1, device1, hI, hlen, ?_⟩
  intro i node udp r hi hu _
  obtain ⟨udp0, r0, hu0, _, hn⟩ := hget i node hi
  rw [hu, Option.some.injEq] at hu0
  subst hu0
  rw [Nat.zero_add] at hn
  exact ⟨_, _, _, hn, rfl, rfl, rfl, rfl⟩

/-- C4, witness: one node whose transport points at the lower-layer target 7,
and one device attached to it. -/
theorem Install_splices_witness :
    ∃ (nodes1 : List Node) (device1 : List NetDevice),
      Install [⟨some ⟨.lower 7⟩, some ⟨.null⟩⟩]
        [⟨some ⟨some ⟨some ⟨.null⟩⟩, some 0⟩⟩] = .ok nodes1 device1 ∧
      nodes1.length = [Node.mk (some ⟨.lower 7⟩) (some ⟨.null⟩)].length ∧
      ∀ (i : Nat) (node : Node) (udp : UdpL4Protocol) (r : RoutingProtocol),
        [Node.mk (some ⟨.lower 7⟩) (some ⟨.null⟩)][i]? = some node →
        node.udp = some udp → node.mygpsr = some r →
        ∃ (node1 : Node) (udp1 : UdpL4Protocol) (r1 : RoutingProtocol),
          nodes1[i]? = some node1 ∧ node1.udp = some udp1 ∧
          node1.mygpsr = some r1 ∧ r1.downTarget = udp.downTarget ∧
          udp1.downTarget = .addHeaders i :=
  Install_splices [⟨some ⟨.lower 7⟩, some ⟨.null⟩⟩]
    [⟨some ⟨some ⟨some ⟨.null⟩⟩, some 0⟩⟩] (by decide) (by decide)

/-- C5, counterexample: on one node whose transport points at the lower-layer
target 0, a first `Install` makes the splice, and a second `Install` is not
rejected and leaves the routing instance's down target at its own `AddHeaders`
entry point instead of the target 0. -/
theorem Install_twice_counterexample :
    Install [⟨some ⟨.lower 0⟩, some ⟨.null⟩⟩] []
      = .ok [⟨some ⟨.addHeaders 0⟩, some ⟨.lower 0⟩⟩] [] ∧
    Install [⟨some ⟨.addHeaders 0⟩, some ⟨.lower 0⟩⟩] []
      = .ok [⟨some ⟨.addHeaders 0⟩, some ⟨.addHeaders 0⟩⟩] [] := by
  decide

/-- C5, as amended: a second `Install`, on the nodes and devices as the first
one left them, is not rejected; after it the down target of every node's
routing instance is that instance's own `AddHeaders` entry point, as is the
transport's, so that the transport's original target `d0` is no longer the
routing instance's down target (unless `d0` was that entry point itself). -/
theorem Install_twice (nodes : List Node) (device : List NetDevice)
    (hc : ∀ node ∈ nodes, nodeReady node = true)
    (hd : ∀ d ∈ device, deviceReady nodes.length d = true) :
    ∃ (nodes1 : List Node) (device1 : List NetDevice) (nodes2 : List Node)
      (device2 : List NetDevice),
      Install nodes device = .ok nodes1 device1 ∧
      Install nodes1 device1 = .ok nodes2 device2 ∧
      ∀ (i : Nat) (node : Node) (udp : UdpL4Protocol) (r : RoutingProtocol),
        nodes[i]? = some node → node.udp = some udp → node.mygpsr = some r →
        ∃ (node2 : Node) (udp2 : UdpL4Protocol) (r2 : RoutingProtocol),
          nodes2[i]? = some node2 ∧ node2.udp = some udp2 ∧
          node2.mygpsr = some r2 ∧ r2.downTarget = .addHeaders i ∧
          udp2.downTarget = .addHeaders i ∧
          (udp.downTarget ≠ .addHeaders i → r2.downTarget ≠ udp.downTarget) := by
  obtain ⟨nodes1, device1, hI1, h1, hw1⟩ := Install_ready nodes device hc hd
  obtain ⟨hlen1, hget1⟩ := spliceLoop_ok 0 nodes nodes1 h1
  have hc1 : ∀ node ∈ nodes1, nodeReady node = true := by
    intro node hmem
    obtain ⟨k, hk⟩ := List.getElem?_of_mem hmem
    have hlt : k < nodes.length := by
      rw [← hlen1]
      by_contra hge
      rw [List.getElem?_eq_none (by omega)] at hk
      cases hk
    obtain ⟨udp, r, _, _, hn⟩ := hget1 k nodes[k] (List.getElem?_eq_getElem hlt)
    rw [hk, Option.some.injEq] at hn
    rw [hn]
    rfl
  have hd1 : ∀ d ∈ device1, deviceReady nodes1.length d = true :=
    wireLoop_ok nodes1 device device1 hw1
  obtain ⟨nodes2, device2, hI2, h2, _⟩ := Install_ready nodes1 device1 hc1 hd1
  obtain ⟨_, hget2⟩ := spliceLoop_ok 0 nodes1 nodes2 h2
  refine ⟨nodes1, device1, nodes2, device2, hI1, hI2, ?_⟩
  intro i node udp r hi hu _
  obtain ⟨udp0, r0, hu0, _, hn1⟩ := hget1 i node hi
  obtain ⟨udp1, r1, hu1, _, hn2⟩ := hget2 i _ hn1
  simp only [Option.some.injEq] at hu1
  subst hu1
  rw [Nat.zero_add] at hn2
  refine ⟨_, _, _, hn2, rfl, rfl, rfl, rfl, ?_⟩
  intro hne heq
  exact hne heq.symm

/-- C5, witness: two nodes and one device. -/
theorem Install_twice_witness :
    ∃ (nodes1 : List Node) (device1 : List NetDevice) (nodes2 : List Node)
      (device2 : List NetDevice),
      Install [⟨some ⟨.lower 0⟩, some ⟨.null⟩⟩, ⟨some ⟨.lower 1⟩, some ⟨.null⟩⟩]
        [⟨some ⟨some ⟨some ⟨.null⟩⟩, some 1⟩⟩] = .ok nodes1 device1 ∧
      Install nodes1 device1 = .ok nodes2 device2 ∧
      ∀ (i : Nat) (node : Node) (udp : UdpL4Protocol) (r : RoutingProtocol),
        [Node.mk (some ⟨.lower 0⟩) (some ⟨.null⟩), ⟨some ⟨.lower 1⟩, some ⟨.null⟩⟩][i]?
          = some node →
        node.udp = some udp → node.mygpsr = some r →
        ∃ (node2 : Node) (udp2 : UdpL4Protocol) (r2 : RoutingProtocol),
          nodes2[i]? = some node2 ∧ node2.udp = some udp2 ∧
          node2.mygpsr = some r2 ∧ r2.downTarget = .addHeaders i ∧
          udp2.downTarget = .addHeaders i ∧
          (udp.downTarget ≠ .addHeaders i → r2.downTarget ≠ udp.downTarget) :=
  Install_twice [⟨some ⟨.lower 0⟩, some ⟨.null⟩⟩, ⟨some ⟨.lower 1⟩, some ⟨.null⟩⟩]
    [⟨some ⟨some ⟨some ⟨.null⟩⟩, some 1⟩⟩] (by decide) (by decide)

/-- C10, counterexample: on a node without a routing instance `Install` stops
at the dereference of the null routing handle, with the node untouched; it
reports no fatal error of its own. -/
theorem Install_unchecked_counterexample :
    Install [⟨some ⟨.lower 0⟩, none⟩] []
      = .fault .nullDereference [⟨some ⟨.lower 0⟩, none⟩] [] ∧
    Install [⟨some ⟨.lower 0⟩, some ⟨.null⟩⟩] [⟨some ⟨some ⟨none⟩, some 0⟩⟩]
      = .fault .nullDereference [⟨some ⟨.addHeaders 0⟩, some ⟨.lower 0⟩⟩]
          [⟨some ⟨some ⟨none⟩, some 0⟩⟩] := by
  decide

/-- C10, as amended: `Install` makes no check of its own and reports no
configuration error; when some node lacks a routing or a transport instance,
or some device is not a `WifiNetDevice` with a `YansWifiPhy` attached to a
node, it stops at the dereference of the null handle, and up to that point it
has wired no feedback channel to a missing routing instance. -/
theorem Install_stops_at_null (nodes : List Node) (device : List NetDevice)
    (h : (∃ node ∈ nodes, nodeReady node = false) ∨
         (∃ d ∈ device, deviceReady nodes.length d = false)) :
    ∃ (nodes1 : List Node) (device1 : List NetDevice),
      Install nodes device = .fault .nullDereference nodes1 device1 ∧
      (∀ msg nodes2 device2, Install nodes device ≠ .fault (.fatalError msg) nodes2 device2) ∧
      ∀ d ∈ device1, danglingFeedback d = true → d ∈ device := by
  have key : ∃ (nodes1 : List Node) (device1 : List NetDevice),
      Install nodes device = .fault .nullDereference nodes1 device1 ∧
      ∀ d ∈ device1, danglingFeedback d = true → d ∈ device := by
    cases h1 : spliceLoop 0 nodes with
    | error e =>
      obtain ⟨f, nodes1⟩ := e
      obtain ⟨hf, _⟩ := spliceLoop_error 0 nodes nodes1 f h1
      subst hf
      exact ⟨nodes1, device, by simp [Install, h1], fun _ hd _ => hd⟩
    | ok nodes1 =>
      have hlen := (spliceLoop_ok 0 nodes nodes1 h1).1
      have hdev : ∃ d ∈ device, deviceReady nodes1.length d = false := by
        rcases h with hnode | hdev
        · obtain ⟨c1, hc1⟩ := spliceLoop_not_ready 0 nodes hnode
          rw [h1] at hc1
          cases hc1
        · rw [hlen]; exact hdev
      obtain ⟨device1, h2⟩ := wireLoop_not_ready nodes1 device hdev
      obtain ⟨_, _, hdang⟩ := wireLoop_error nodes1 device device1 _ h2
      exact ⟨nodes1, device1, by simp [Install, h1, h2],
        hdang (spliceLoop_ok_mygpsr 0 nodes nodes1 h1)⟩
  obtain ⟨nodes1, device1, hI, hdang⟩ := key
  refine ⟨nodes1, device1, hI, ?_, hdang⟩
  intro msg nodes2 device2 hbad
  rw [hI] at hbad
  cases hbad

/-- C10, witness: a node that lacks its routing instance. -/
theorem Install_stops_at_null_witness :
    ∃ (nodes1 : List Node) (device1 : List NetDevice),
      Install [⟨some ⟨.lower 0⟩, none⟩] [⟨some ⟨some ⟨some ⟨.null⟩⟩, some 0⟩⟩]
        = .fault .nullDereference nodes1 device1 ∧
      (∀ msg nodes2 device2,
        Install [⟨some ⟨.lower 0⟩, none⟩] [⟨some ⟨some ⟨some ⟨.null⟩⟩, some 0⟩⟩]
          ≠ .fault (.fatalError msg) nodes2 device2) ∧
      ∀ d ∈ device1, danglingFeedback d = true →
        d ∈ [NetDevice.mk (some ⟨some ⟨some ⟨.null⟩⟩, some 0⟩)] :=
  Install_stops_at_null [⟨some ⟨.lower 0⟩, none⟩] [⟨some ⟨some ⟨some ⟨.null⟩⟩, some 0⟩⟩]
    (Or.inl ⟨⟨some ⟨.lower 0⟩, none⟩, by simp, by decide⟩)

end MyGpsrHelper

/-! ## The sweep of `main` -/

namespace RoutingExperiment

/-- The pairs that the loops of `main` produce, written out. -/
theorem mainSweep_eq :
    mainSweep =
      [(5, 20), (5, 25), (5, 30), (5, 35), (5, 40), (5, 45), (5, 50), (5, 55), (5, 60),
       (5, 65), (5, 70), (5, 75), (5, 80), (5, 85), (5, 90), (5, 95), (5, 100),
       (6, 20), (6, 25), (6, 30), (6, 35), (6, 40), (6, 45), (6, 50), (6, 55), (6, 60),
       (6, 65), (6, 70), (6, 75), (6, 80), (6, 85), (6, 90), (6, 95), (6, 100)] := by
  simp [mainSweep, protocolLoop, countsLoop]

/-- Every pair of the sweep has protocol 5 or 6 and a node count that is a
multiple of 5 between 20 and 100. -/
theorem mem_mainSweep (protocol counts : Int) (h : (protocol, counts) ∈ mainSweep) :
    (protocol = 5 ∨ protocol = 6) ∧ 20 ≤ counts ∧ counts ≤ 100 ∧ counts % 5 = 0 := by
  rw [mainSweep_eq] at h
  simp only [List.mem_cons, Prod.mk.injEq, List.mem_singleton, List.not_mem_nil,
    or_false] at h
  omega

/-- The sinks that the traffic loop sets up are the nodes `0 .. nSinks - 1`. -/
theorem mem_trafficLoop_sink (nSinks i : Int) :
    SetupStep.setupPacketReceive i ∈ trafficLoop nSinks ↔ 0 ≤ i ∧ i < nSinks := by
  simp only [trafficLoop, List.mem_flatMap, List.mem_range, List.mem_cons,
    SetupStep.setupPacketReceive.injEq, List.mem_singleton, reduceCtorEq, or_false,
    List.not_mem_nil]
  constructor
  · rintro ⟨k, hk, rfl⟩
    omega
  · rintro ⟨h0, h1⟩
    exact ⟨i.toNat, by omega, by omega⟩

/-- The sources that the traffic loop sets up are the nodes
`nSinks .. 2 * nSinks - 1`. -/
theorem mem_trafficLoop_source (nSinks j : Int) :
    SetupStep.addApplication j ∈ trafficLoop nSinks ↔ nSinks ≤ j ∧ j < 2 * nSinks := by
  simp only [trafficLoop, List.mem_flatMap, List.mem_range, List.mem_cons,
    SetupStep.addApplication.injEq, List.mem_singleton, reduceCtorEq, false_or,
    List.not_mem_nil, or_false]
  constructor
  · rintro ⟨k, hk, rfl⟩
    omega
  · rintro ⟨h0, h1⟩
    exact ⟨(j - nSinks).toNat, by omega, by omega⟩

/-- The steps of a run with protocol 5 or 6: the sinks and sources among them
are those of the traffic loop, and the run does not end in a fault. -/
theorem Run_geographic (s : RoutingExperiment) (nSinks : Int) (txp : CDouble)
    (CSVfileName : String) (protocol : Int) (nodes : Int)
    (deliveries : List (Int × List Packet)) (hp : protocol = 5 ∨ protocol = 6) :
    (Run s nSinks txp CSVfileName protocol nodes deliveries).fault = none ∧
    (∀ i, SetupStep.setupPacketReceive i
        ∈ (Run s nSinks txp CSVfileName protocol nodes deliveries).steps
      ↔ SetupStep.setupPacketReceive i ∈ trafficLoop nSinks) ∧
    (∀ j, SetupStep.addApplication j
        ∈ (Run s nSinks txp CSVfileName protocol nodes deliveries).steps
      ↔ SetupStep.addApplication j ∈ trafficLoop nSinks) := by
  rcases hp with rfl | rfl
  · have h5 : protocolSwitch (toUint32 5) = .ok ([], "GPSR") := rfl
    have hs : installStack (toUint32 5)
        = [.setRoutingHelper "gpsr", .installInternet, .gpsrInstall] := rfl
    refine ⟨by simp only [Run, h5], ?_, ?_⟩ <;> intro i <;> simp [Run, h5, hs]
  · have h6 : protocolSwitch (toUint32 6) = .ok ([], "MYGPSR") := rfl
    have hs : installStack (toUint32 6)
        = [.setRoutingHelper "mygpsr", .installInternet, .mygpsrInstall] := rfl
    refine ⟨by simp only [Run, h6], ?_, ?_⟩ <;> intro i <;> simp [Run, h6, hs]

/-- A sweep whose protocols are all 5 or 6 makes every one of its runs, and
none of them ends in a fault. -/
theorem sweepRuns_geographic (sweep : List (Int × Int))
    (hs : ∀ pc ∈ sweep, pc.1 = 5 ∨ pc.1 = 6) (s : RoutingExperiment) (CSVfileName : String)
    (env : List (List (Int × List Packet))) :
    (sweepRuns s CSVfileName sweep env).length = sweep.length ∧
    ∀ r ∈ sweepRuns s CSVfileName sweep env, r.fault = none := by
  induction sweep generalizing s env with
  | nil => exact ⟨rfl, by simp [sweepRuns]⟩
  | cons pc rest ih =>
    obtain ⟨protocol, counts⟩ := pc
    have hp : protocol = 5 ∨ protocol = 6 := hs (protocol, counts) (List.mem_cons_self _ _)
    have hf := (Run_geographic s 10 (CDouble.finite 20) CSVfileName protocol counts
      (env.headD []) hp).1
    have hrest := ih (fun x hx => hs x (List.mem_cons_of_mem _ hx))
      (Run s 10 (CDouble.finite 20) CSVfileName protocol counts (env.headD [])).state env.tail
    simp only [sweepRuns, hf, List.length_cons, List.mem_cons]
    refine ⟨by rw [hrest.1], ?_⟩
    rintro r (rfl | hr)
    · exact hf
    · exact hrest.2 r hr

/-- C11: `main` makes 34 runs, none of which ends in a fault, and for every
pair (protocol, counts) that its sweep passes to `Run` with `nSinks = 10`: the
protocol is 5 or 6, so the switch takes a `case` label and not the fatal
`default`; the node count is at least `2 * nSinks`; the traffic loop uses every
sink index `i` and source index `i + nSinks` with `0 <= i < nSinks`, each of
them a valid node index below the node count; and no node is both a sink and
a source. -/
theorem main_sweep_indices (nSinks0 : Int) (txp0 : CDouble) (cmd : CommandLine)
    (env : List (List (Int × List Packet))) (s : RoutingExperiment) (CSVfileName : String)
    (deliveries : List (Int × List Packet)) (protocol counts : Int)
    (h : (protocol, counts) ∈ mainSweep) :
    mainSweep.length = 34 ∧
    (main nSinks0 txp0 cmd env).length = 34 ∧
    (∀ r ∈ main nSinks0 txp0 cmd env, r.fault = none) ∧
    (protocol = 5 ∨ protocol = 6) ∧
    2 * 10 ≤ counts ∧
    (∃ res, protocolSwitch (toUint32 protocol) = .ok res) ∧
    (Run s 10 (CDouble.finite 20) CSVfileName protocol counts deliveries).fault = none ∧
    (∀ i : Int, 0 ≤ i → i < 10 →
      SetupStep.setupPacketReceive i
        ∈ (Run s 10 (CDouble.finite 20) CSVfileName protocol counts deliveries).steps ∧
      SetupStep.addApplication (i + 10)
        ∈ (Run s 10 (CDouble.finite 20) CSVfileName protocol counts deliveries).steps ∧
      i < counts ∧ i + 10 < counts) ∧
    (∀ i : Int, SetupStep.setupPacketReceive i
        ∈ (Run s 10 (CDouble.finite 20) CSVfileName protocol counts deliveries).steps →
      0 ≤ i ∧ i < counts) ∧
    (∀ j : Int, SetupStep.addApplication j
        ∈ (Run s 10 (CDouble.finite 20) CSVfileName protocol counts deliveries).steps →
      0 ≤ j ∧ j < counts) ∧
    (∀ i : Int, SetupStep.setupPacketReceive i
        ∈ (Run s 10 (CDouble.finite 20) CSVfileName protocol counts deliveries).steps →
      SetupStep.addApplication i
        ∉ (Run s 10 (CDouble.finite 20) CSVfileName protocol counts deliveries).steps) := by
  have hlen : mainSweep.length = 34 := by rw [mainSweep_eq]; rfl
  have hall : ∀ pc ∈ mainSweep, pc.1 = 5 ∨ pc.1 = 6 := fun pc hpc =>
    (mem_mainSweep pc.1 pc.2 hpc).1
  have hmain := sweepRuns_geographic mainSweep hall (CommandSetup (new nSinks0 txp0) cmd)
    (CommandSetup (new nSinks0 txp0) cmd).m_CSVfileName env
  obtain ⟨hp, h20, _, _⟩ := mem_mainSweep protocol counts h
  obtain ⟨hfault, hsink, hsource⟩ :=
    Run_geographic s 10 (CDouble.finite 20) CSVfileName protocol counts deliveries hp
  have hin := toUint32_inside protocol (by omega) (by omega)
  refine ⟨hlen, ?_, hmain.2, hp, by omega, protocolSwitch_case _ hin.1 hin.2, hfault,
    ?_, ?_, ?_, ?_⟩
  · show (sweepRuns _ _ mainSweep env).length = 34
    rw [hmain.1, hlen]
  · intro i h0 h10
    refine ⟨?_, ?_, by omega, by omega⟩
    · rw [hsink, mem_trafficLoop_sink]; omega
    · rw [hsource, mem_trafficLoop_source]; omega
  · intro i hi
    rw [hsink, mem_trafficLoop_sink] at hi
    omega
  · intro j hj
    rw [hsource, mem_trafficLoop_source] at hj
    omega
  · intro i hi hsrc
    rw [hsink, mem_trafficLoop_sink] at hi
    rw [hsource, mem_trafficLoop_source] at hsrc
    omega

/-- C11, witness: the first run of the sweep, protocol 5 on 20 nodes, after a
command line without options. -/
theorem main_sweep_indices_witness :
    (main 0 (CDouble.finite 0) ⟨none, none, none, none, none⟩ []).length = 34 ∧
    ((5 : Int) = 5 ∨ (5 : Int) = 6) ∧
    2 * 10 ≤ (20 : Int) ∧
    (Run (new 0 (CDouble.finite 0)) 10 (CDouble.finite 20) "out.csv" 5 20 []).fault = none ∧
    (∀ i : Int, 0 ≤ i → i < 10 →
      SetupStep.setupPacketReceive i
        ∈ (Run (new 0 (CDouble.finite 0)) 10 (CDouble.finite 20) "out.csv" 5 20 []).steps ∧
      SetupStep.addApplication (i + 10)
        ∈ (Run (new 0 (CDouble.finite 0)) 10 (CDouble.finite 20) "out.csv" 5 20 []).steps ∧
      i < 20 ∧ i + 10 < 20) :=
  have h := main_sweep_indices 0 (CDouble.finite 0) ⟨none, none, none, none, none⟩ []
    (new 0 (CDouble.finite 0)) "out.csv" [] 5 20 (by rw [mainSweep_eq]; decide)
  ⟨h.2.1, h.2.2.2.1, h.2.2.2.2.1, h.2.2.2.2.2.2.1, h.2.2.2.2.2.2.2.1⟩

end RoutingExperiment
